import Mathlib

/-!
Verification of the FlaskTrack scaffold generator and related components,
shallowly embedded from `src/flasktrack/scaffold.py`, `tracker.py`, `cli.py`,
`utils.py` and the generated application's `app/models/user.py`.

Strings are modelled as `List Char`; Python text operations (slicing,
`startswith`, `in`, `re` searches for the concrete regexes used by the code)
are embedded as explicit executable functions.
-/

set_option maxRecDepth 100000

/-- Characters of a string literal. -/
def lchars (s : String) : List Char := s.data

/-- Single quote character (ASCII 39). -/
def squote : Char := Char.ofNat 39

/-- Left brace character (ASCII 123). -/
def lbraceC : Char := Char.ofNat 123

/-- Right brace character (ASCII 125). -/
def rbraceC : Char := Char.ofNat 125

/-- Python `sub in s` substring test for `List Char`. -/
def containsSub : List Char → List Char → Bool
  | pat, [] => pat.isEmpty
  | pat, c :: rest => pat.isPrefixOf (c :: rest) || containsSub pat rest

/-- Python `str.lower` (ASCII). -/
def lowerL (w : List Char) : List Char := w.map Char.toLower

/-- Python `str.capitalize` (ASCII): first character uppercased, the rest
lowercased. -/
def capitalizeL : List Char → List Char
  | [] => []
  | c :: cs => c.toUpper :: cs.map Char.toLower

/-- Python regex `\w` word character (ASCII fragment). -/
def isWordC (c : Char) : Bool := c.isAlphanum || c = '_'

/-- Python regex `\s` whitespace character (ASCII fragment). -/
def isWsC (c : Char) : Bool :=
  c = ' ' || c = '\t' || c = '\n' || c = '\r' || c = '\x0b' || c = '\x0c'

/-- Maximal `\w+`-style run at the head of a string. -/
def wordRun (s : List Char) : List Char := s.takeWhile isWordC

/-- Embeds `Scaffold.TYPE_MAPPINGS` from `scaffold.py`: scaffold type name to
SQLAlchemy column type; `none` models absence from the dict. -/
def TYPE_MAPPINGS (t : List Char) : Option (List Char) :=
  if t == lchars "string" then some (lchars "db.String(255)")
  else if t == lchars "text" then some (lchars "db.Text")
  else if t == lchars "integer" then some (lchars "db.Integer")
  else if t == lchars "float" then some (lchars "db.Float")
  else if t == lchars "decimal" then some (lchars "db.Numeric")
  else if t == lchars "boolean" then some (lchars "db.Boolean")
  else if t == lchars "date" then some (lchars "db.Date")
  else if t == lchars "datetime" then some (lchars "db.DateTime")
  else if t == lchars "references" then some (lchars "reference")
  else if t == lchars "belongs_to" then some (lchars "reference")
  else none

/-- Embeds `Scaffold.FORM_FIELD_MAPPINGS` from `scaffold.py`. -/
def FORM_FIELD_MAPPINGS (t : List Char) : Option (List Char) :=
  if t == lchars "string" then some (lchars "StringField")
  else if t == lchars "text" then some (lchars "TextAreaField")
  else if t == lchars "integer" then some (lchars "IntegerField")
  else if t == lchars "float" then some (lchars "FloatField")
  else if t == lchars "decimal" then some (lchars "DecimalField")
  else if t == lchars "boolean" then some (lchars "BooleanField")
  else if t == lchars "date" then some (lchars "DateField")
  else if t == lchars "datetime" then some (lchars "DateTimeField")
  else if t == lchars "references" then some (lchars "SelectField")
  else if t == lchars "belongs_to" then some (lchars "SelectField")
  else none

/-- One parsed field record (`field_info` dict in `Scaffold.parse_fields`). -/
structure FieldInfo where
  name : List Char
  type : List Char
  sqlalchemy_type : List Char
  form_field_type : List Char
  is_reference : Bool
  referenced_model : Option (List Char)
deriving DecidableEq, Repr

/-- Tests that `field_def` contains a colon (Python `":" in field_def`). -/
def hasColon (d : List Char) : Bool := d.contains ':'

/-- The `name` part of `field_def.split(":", 1)`. -/
def splitName (d : List Char) : List Char := d.takeWhile (fun c => c != ':')

/-- The `field_type` part of `field_def.split(":", 1)`: everything after the
first colon. -/
def splitType (d : List Char) : List Char := d.drop ((splitName d).length + 1)

/-- The optional group `(?:\[(\w+)\])?` of the regex
`(references|belongs_to)(?:\[(\w+)\])?` applied right after the keyword:
a bracketed nonempty word, or no match. -/
def bracketModel (rest : List Char) : Option (List Char) :=
  match rest with
  | '[' :: r2 =>
    let w := wordRun r2
    if w.isEmpty then none
    else if (r2.drop w.length).headD ' ' == ']' then some w else none
  | _ => none

/-- Body of the `Scaffold.parse_fields` loop after `field_def.split(":", 1)`
has produced `name` and `ftype0`: reference-keyword normalization via the
regex `(references|belongs_to)(?:\[(\w+)\])?`, then the type-table lookup.
`.error` models `raise ValueError`. -/
def parseTypedField (name ftype0 : List Char) : Except (List Char) FieldInfo :=
  let isRef := (lchars "references").isPrefixOf ftype0
      || (lchars "belongs_to").isPrefixOf ftype0
  let ftype1 :=
    if isRef then
      (if (lchars "references").isPrefixOf ftype0 then lchars "references"
       else lchars "belongs_to")
    else ftype0
  let rm : Option (List Char) :=
    if isRef then
      match bracketModel (ftype0.drop ftype1.length) with
      | some m => some m
      | none => some (capitalizeL name)
    else none
  match TYPE_MAPPINGS ftype1 with
  | some sq =>
    .ok { name := name
          type := ftype1
          sqlalchemy_type := sq
          form_field_type := (FORM_FIELD_MAPPINGS ftype1).getD []
          is_reference := ftype1 == lchars "references" || ftype1 == lchars "belongs_to"
          referenced_model := rm }
  | none => .error (lchars "Invalid field type: " ++ ftype1)

/-- One iteration of the loop body of `Scaffold.parse_fields`. -/
def parseFieldDef (d : List Char) : Except (List Char) FieldInfo :=
  if hasColon d then parseTypedField (splitName d) (splitType d)
  else .error (lchars "Invalid field definition: " ++ d)

/-- The corrected error condition for one field definition: no colon, or a
type part that neither starts with `references`/`belongs_to` nor is one of
the ten mapped types. -/
def invalidType (ftype0 : List Char) : Bool :=
  !((lchars "references").isPrefixOf ftype0
      || (lchars "belongs_to").isPrefixOf ftype0)
    && (TYPE_MAPPINGS ftype0).isNone

/-- The corrected invalidity test for a whole field definition. -/
def invalidFieldDef (d : List Char) : Bool :=
  if hasColon d then invalidType (splitType d) else true

/-- Embeds `Scaffold.parse_fields`: parses each definition in order, raising at the
first invalid one. -/
def parse_fields : List (List Char) → Except (List Char) (List FieldInfo)
  | [] => .ok []
  | d :: ds =>
    match parseFieldDef d with
    | .error e => .error e
    | .ok f =>
      match parse_fields ds with
      | .error e => .error e
      | .ok fs => .ok (f :: fs)

/-- Vowel test used by `Scaffold.pluralize` (`word[-2] not in "aeiou"`). -/
def isVowelC (c : Char) : Bool :=
  c = 'a' || c = 'e' || c = 'i' || c = 'o' || c = 'u'

/-- Second-to-last character (`word[-2]`), defaulting to a blank for short
words (only consulted under a length guard). -/
def penult (w : List Char) : Char := (w.reverse.drop 1).headD ' '

/-- Python `word.endswith` over a tuple of suffixes. -/
def endsAny (w : List Char) (sufs : List (List Char)) : Bool :=
  sufs.any (fun s => s.isSuffixOf w)

/-- Embeds `Scaffold.pluralize` from `scaffold.py`: irregular lookup, then suffix
rules in source order. -/
def pluralize (word : List Char) : List Char :=
  if word = lchars "person" then lchars "people"
  else if word = lchars "child" then lchars "children"
  else if word = lchars "man" then lchars "men"
  else if word = lchars "woman" then lchars "women"
  else if word = lchars "tooth" then lchars "teeth"
  else if word = lchars "foot" then lchars "feet"
  else if word = lchars "mouse" then lchars "mice"
  else if word = lchars "goose" then lchars "geese"
  else if (lchars "y").isSuffixOf word && decide (1 < word.length)
      && !(isVowelC (penult word)) then
    word.dropLast ++ lchars "ies"
  else if endsAny word [lchars "s", lchars "ss", lchars "sh", lchars "ch",
      lchars "x", lchars "z", lchars "o"] then
    word ++ lchars "es"
  else if (lchars "f").isSuffixOf word then word.dropLast ++ lchars "ves"
  else if (lchars "fe").isSuffixOf word then word.dropLast.dropLast ++ lchars "ves"
  else word ++ lchars "s"

/-- A `Scaffold` instance's derived state (`__init__` of `Scaffold`). -/
structure Scaffold where
  name : List Char
  name_lower : List Char
  name_plural : List Char
  fields : List FieldInfo
deriving DecidableEq, Repr

/-- Embeds `Scaffold.__init__`: lowercases the name, pluralizes it, and parses the
field definitions (which may raise `ValueError`). -/
def Scaffold.make (name : List Char) (fieldDefs : List (List Char)) :
    Except (List Char) Scaffold :=
  match parse_fields fieldDefs with
  | .error e => .error e
  | .ok fs =>
    .ok { name := name
          name_lower := lowerL name
          name_plural := pluralize (lowerL name)
          fields := fs }

/-! ## `Scaffold.update_app_init` (`scaffold.py`)

The method patches an `app/__init__.py` text with three regex-driven
insertions.  Each concrete regex the source compiles is embedded as an
explicit scanner with Python `re` semantics (leftmost search; greedy and
lazy quantifier behaviour worked out for these fixed patterns). -/

/-- The blueprint import line
`from app.controllers.<plural> import <plural>_bp`. -/
def importLineOf (plural : List Char) : List Char :=
  lchars "from app.controllers." ++ plural ++ lchars " import " ++ plural
    ++ lchars "_bp"

/-- The registration line
`app.register_blueprint(<plural>_bp, url_prefix='/<plural>')`. -/
def registerLineOf (plural : List Char) : List Char :=
  lchars "app.register_blueprint(" ++ plural ++ lchars "_bp, url_prefix="
    ++ [squote, '/'] ++ plural ++ [squote, ')']

/-- Match of `from app\.controllers\.\w+ import \w+_bp\n` at the head of a
string, returning the number of characters consumed.  Both `\w+` groups are
maximal runs (the following literal starts with a non-word character), and
the second must end in `_bp` followed by the newline. -/
def matchCtrlImportAt (s : List Char) : Option Nat :=
  let lit1 := lchars "from app.controllers."
  if lit1.isPrefixOf s then
    let s1 := s.drop lit1.length
    let w1 := wordRun s1
    if w1.isEmpty then none
    else
      let s2 := s1.drop w1.length
      let lit2 := lchars " import "
      if lit2.isPrefixOf s2 then
        let s3 := s2.drop lit2.length
        let w2 := wordRun s3
        if decide (4 ≤ w2.length) && (lchars "_bp").isSuffixOf w2
            && (s3.drop w2.length).headD ' ' == '\n' then
          some (lit1.length + w1.length + lit2.length + w2.length + 1)
        else none
      else none
  else none

/-- Lazy `(.*?)` (no DOTALL: `.` excludes newlines) followed by the
controller-import tail: smallest number of non-newline characters after
which `matchCtrlImportAt` succeeds; returns total characters consumed. -/
def lazyThenCtrlImport : List Char → Option Nat
  | [] => matchCtrlImportAt []
  | c :: rest =>
    match matchCtrlImportAt (c :: rest) with
    | some k => some k
    | none =>
      if c = '\n' then none
      else (lazyThenCtrlImport rest).map (· + 1)

/-- Match of the full pattern
`(\s+# Register blueprints\n)(.*?)(from app\.controllers\.\w+ import \w+_bp\n)`
at the head of a string (consumed length).  `\s+` is forced to the maximal
whitespace run because the following literal starts with `#`. -/
def matchPat1At (s : List Char) : Option Nat :=
  let run := s.takeWhile isWsC
  if run.isEmpty then none
  else
    let s1 := s.drop run.length
    let lit := lchars "# Register blueprints\n"
    if lit.isPrefixOf s1 then
      (lazyThenCtrlImport (s1.drop lit.length)).map
        (fun k => run.length + lit.length + k)
    else none

/-- Match of `(\s+)(app\.register_blueprint\()` at the head of a string,
returning group 1 (the whitespace run). -/
def matchPat2At (s : List Char) : Option (List Char) :=
  let run := s.takeWhile isWsC
  if run.isEmpty then none
  else if (lchars "app.register_blueprint(").isPrefixOf (s.drop run.length) then
    some run
  else none

/-- Match of `app\.register_blueprint\([^)]+\)` at the head of a string
(consumed length): the literal, then a maximal nonempty run of
non-`)` characters, then `)`. -/
def matchRegCallAt (s : List Char) : Option Nat :=
  let lit := lchars "app.register_blueprint("
  if lit.isPrefixOf s then
    let s1 := s.drop lit.length
    let run := s1.takeWhile (fun c => c != ')')
    if run.isEmpty then none
    else if (s1.drop run.length).headD ' ' == ')' then
      some (lit.length + run.length + 1)
    else none
  else none

/-- Python `re.search` end position: leftmost position where `f` matches, returning
`start + consumed` (Python `match.end()`). -/
def searchEnd (f : List Char → Option Nat) : List Char → Nat → Option Nat
  | [], pos => (f []).map (pos + ·)
  | s@(_ :: rest), pos =>
    match f s with
    | some k => some (pos + k)
    | none => searchEnd f rest (pos + 1)

/-- Python `re.search` start position with group payload: leftmost position where
`f` matches, returning `(match.start(), payload)`. -/
def searchStart (f : List Char → Option (List Char)) :
    List Char → Nat → Option (Nat × List Char)
  | [], pos => (f []).map (fun g => (pos, g))
  | s@(_ :: rest), pos =>
    match f s with
    | some g => some (pos, g)
    | none => searchStart f rest (pos + 1)

/-- Python `re.finditer` for `app\.register_blueprint\([^)]+\)`, keeping the last
match as `(start, end)`.  Matches are non-overlapping: after a match the
scan resumes at its end.  `fuel` bounds the recursion (call with
`length + 1`). -/
def lastRegCall : Nat → List Char → Nat → Option (Nat × Nat) → Option (Nat × Nat)
  | 0, _, _, acc => acc
  | fuel + 1, s, pos, acc =>
    match matchRegCallAt s with
    | some k => lastRegCall fuel (s.drop k) (pos + k) (some (pos, pos + k))
    | none =>
      match s with
      | [] => acc
      | _ :: rest => lastRegCall fuel rest (pos + 1) acc

/-- Python `content.rfind("\n", 0, start) + 1`: index just after the last
newline strictly before `start` (0 when there is none). -/
def lineStart (content : List Char) (start : Nat) : Nat :=
  let pref := content.take start
  match pref.reverse.findIdx? (· = '\n') with
  | some i => pref.length - i
  | none => 0

/-- Match of `from app\.models\.\w+ import \w+\n` at the head of a string
(consumed length). -/
def matchModelImportAt (s : List Char) : Option Nat :=
  let lit1 := lchars "from app.models."
  if lit1.isPrefixOf s then
    let s1 := s.drop lit1.length
    let w1 := wordRun s1
    if w1.isEmpty then none
    else
      let s2 := s1.drop w1.length
      let lit2 := lchars " import "
      if lit2.isPrefixOf s2 then
        let s3 := s2.drop lit2.length
        let w2 := wordRun s3
        if w2.isEmpty then none
        else if (s3.drop w2.length).headD ' ' == '\n' then
          some (lit1.length + w1.length + lit2.length + w2.length + 1)
        else none
      else none
  else none

/-- Lazy DOTALL `.*?` followed by the model-import tail: smallest number of
characters (newlines allowed) after which `matchModelImportAt` succeeds. -/
def lazyThenModelImport : List Char → Option Nat
  | [] => matchModelImportAt []
  | c :: rest =>
    match matchModelImportAt (c :: rest) with
    | some k => some k
    | none => (lazyThenModelImport rest).map (· + 1)

/-- Match of the shell-context pattern
`(@app\.shell_context_processor\s+def make_shell_context\(\):.*?)(from app\.models\.\w+ import \w+\n)`
(with DOTALL) at the head of a string, returning consumed length. -/
def matchPat4At (s : List Char) : Option Nat :=
  let lit1 := lchars "@app.shell_context_processor"
  if lit1.isPrefixOf s then
    let s1 := s.drop lit1.length
    let run := s1.takeWhile isWsC
    if run.isEmpty then none
    else
      let s2 := s1.drop run.length
      let lit2 := lchars "def make_shell_context():"
      if lit2.isPrefixOf s2 then
        (lazyThenModelImport (s2.drop lit2.length)).map
          (fun k => lit1.length + run.length + lit2.length + k)
      else none
  else none

/-- Greedy backtracking for `[^}]+` followed by a literal: the largest
`p ≥ 1` not exceeding the given bound such that the literal is a prefix of
`s.drop p`; base call passes the length of the maximal non-`}` run. -/
def greedyNonBraceThen (lit2 s : List Char) : Nat → Option Nat
  | 0 => none
  | p + 1 =>
    if lit2.isPrefixOf (s.drop (p + 1)) then some (p + 1)
    else greedyNonBraceThen lit2 s p

/-- Match of `return \x7b[^}]+"User": User` at the head of a string
(consumed length). -/
def matchReturnDictAt (s : List Char) : Option Nat :=
  let lit := lchars "return " ++ [lbraceC]
  let lit2 := lchars "\"User\": User"
  if lit.isPrefixOf s then
    let s1 := s.drop lit.length
    let run := s1.takeWhile (fun c => c != rbraceC)
    (greedyNonBraceThen lit2 s1 run.length).map
      (fun p => lit.length + p + lit2.length)
  else none

/-- Import-insertion step of `update_app_init`: after the blueprint import
section when pattern 1 matches, else before the first indented
`app.register_blueprint(` when pattern 2 matches, else no change. -/
def patchStepImport (plural content : List Char) : List Char :=
  match searchEnd matchPat1At content 0 with
  | some e =>
    content.take e ++ lchars "    " ++ importLineOf plural ++ lchars "\n"
      ++ content.drop e
  | none =>
    match searchStart matchPat2At content 0 with
    | some (st, indentRun) =>
      content.take st ++ indentRun ++ importLineOf plural ++ lchars "\n\n"
        ++ content.drop st
    | none => content

/-- Registration-insertion step of `update_app_init`: after the last
`app.register_blueprint(...)` call, reusing that line's indentation. -/
def patchStepRegister (plural content : List Char) : List Char :=
  let reg := registerLineOf plural
  if containsSub reg content then content
  else
    match lastRegCall (content.length + 1) content 0 none with
    | some (st, en) =>
      let ls := lineStart content st
      let indent := (content.take st).drop ls
      content.take en ++ lchars "\n" ++ indent ++ reg ++ content.drop en
    | none => content

/-- Shell-context step of `update_app_init`: inserts the model import after
the matched shell-context import, then extends the `return` dict after
`"User": User`. -/
def patchStepShell (name nameLower content : List Char) : List Char :=
  match searchEnd matchPat4At content 0 with
  | none => content
  | some e =>
    let modelImport := lchars "from app.models." ++ nameLower
      ++ lchars " import " ++ name
    if containsSub modelImport content then content
    else
      let c1 := content.take e ++ lchars "        " ++ modelImport
        ++ lchars "\n" ++ content.drop e
      match searchEnd matchReturnDictAt c1 0 with
      | some e2 =>
        c1.take e2 ++ lchars ", \"" ++ name ++ lchars "\": " ++ name
          ++ c1.drop e2
      | none => c1

/-- Embeds `Scaffold.update_app_init`: file existence is passed as a boolean and
the file body as text; returns `(return value, text written back)` (the
text is unchanged on the `False` early returns, where the source writes
nothing). -/
def update_app_init (sc : Scaffold) (fileExists : Bool) (content : List Char) :
    Bool × List Char :=
  if !fileExists then (false, content)
  else if containsSub (importLineOf sc.name_plural) content then (false, content)
  else
    let c1 := patchStepImport sc.name_plural content
    let c2 := patchStepRegister sc.name_plural c1
    let c3 := patchStepShell sc.name sc.name_lower c2
    (true, c3)

/-- A concrete scaffold for `Post` with no fields, as produced by
`Scaffold.make (lchars "Post") []`. -/
def scPost : Scaffold :=
  { name := lchars "Post"
    name_lower := lchars "post"
    name_plural := lchars "posts"
    fields := [] }

/-- A realistic `app/__init__.py` fragment containing all the anchors looked
for by the import- and register-insertion regexes. -/
def initContent : List Char :=
  lchars "    # Register blueprints\n    from app.controllers.main import main_bp\n\n    app.register_blueprint(main_bp)\n"

/-! ## Template rendering and `write_files` (`scaffold.py`)

The Jinja2 environment is built from the fixed on-disk template directory,
so it is the same value for every `Scaffold` instance; it is modelled as an
explicit `Render` argument mapping a template name and its context to the
rendered text. -/

/-- A value passed into a template context. -/
inductive TVal
  | s (v : List Char)
  | b (v : Bool)
  | fs (v : List FieldInfo)
deriving DecidableEq

/-- A Jinja2 environment: template name and context to rendered text. -/
abbrev Render := List Char → List (List Char × TVal) → List Char

/-- Embeds `Scaffold.generate_model`. -/
def generate_model (render : Render) (sc : Scaffold) : List Char :=
  render (lchars "model.py.jinja2")
    [(lchars "model_name", .s sc.name),
     (lchars "table_name", .s sc.name_plural),
     (lchars "fields", .fs sc.fields),
     (lchars "referenced_models", .fs (sc.fields.filter (·.is_reference)))]

/-- Embeds `Scaffold.generate_controller`. -/
def generate_controller (render : Render) (sc : Scaffold) : List Char :=
  render (lchars "controller.py.jinja2")
    [(lchars "model_name", .s sc.name),
     (lchars "model_name_lower", .s sc.name_lower),
     (lchars "model_name_plural", .s sc.name_plural),
     (lchars "fields", .fs sc.fields),
     (lchars "has_references", .b (sc.fields.any (·.is_reference)))]

/-- Embeds `Scaffold.generate_form`. -/
def generate_form (render : Render) (sc : Scaffold) : List Char :=
  render (lchars "form.py.jinja2")
    [(lchars "model_name", .s sc.name),
     (lchars "fields", .fs sc.fields),
     (lchars "has_references", .b (sc.fields.any (·.is_reference)))]

/-- The five view template names generated by `Scaffold.generate_views`. -/
def viewTemplateNames : List (List Char) :=
  [lchars "index.html", lchars "show.html", lchars "new.html",
   lchars "edit.html", lchars "_form.html"]

/-- Embeds `Scaffold.generate_views`: template name to rendered content, in
generation order. -/
def generate_views (render : Render) (sc : Scaffold) :
    List (List Char × List Char) :=
  viewTemplateNames.map (fun tn =>
    (tn, render (tn ++ lchars ".jinja2")
      [(lchars "model_name", .s sc.name),
       (lchars "model_name_lower", .s sc.name_lower),
       (lchars "model_name_plural", .s sc.name_plural),
       (lchars "fields", .fs sc.fields)]))

/-- Path `models_dir / (name_lower + ".py")`: the model file of a scaffold. -/
def modelPathOf (base : List Char) (sc : Scaffold) : List Char :=
  base ++ lchars "/app" ++ lchars "/models" ++ ('/' :: sc.name_lower)
    ++ lchars ".py"

/-- Path `controllers_dir / (name_plural + ".py")`: the controller file. -/
def controllerPathOf (base : List Char) (sc : Scaffold) : List Char :=
  base ++ lchars "/app" ++ lchars "/controllers" ++ ('/' :: sc.name_plural)
    ++ lchars ".py"

/-- Path `forms_dir / (name_lower + ".py")`: the form file. -/
def formPathOf (base : List Char) (sc : Scaffold) : List Char :=
  base ++ lchars "/app" ++ lchars "/forms" ++ ('/' :: sc.name_lower)
    ++ lchars ".py"

/-- Path `views_dir / view_name`: a view template file. -/
def viewPathOf (base : List Char) (sc : Scaffold) (tn : List Char) : List Char :=
  base ++ lchars "/app" ++ lchars "/views/" ++ sc.name_plural ++ ('/' :: tn)

/-- The five view file paths written by `write_files`, in order. -/
def viewPathsOf (base : List Char) (sc : Scaffold) : List (List Char) :=
  viewTemplateNames.map (viewPathOf base sc)

/-- Embeds `Scaffold.write_files`: existence of a path in the pre-state is passed
as a predicate; returns the list of created file paths in creation order
(model, controller, form, then the five views), or the `FileExistsError`
message.  View files are written without an existence check. -/
def write_files (fileExists : List Char → Bool) (render : Render)
    (sc : Scaffold) (base : List Char) : Except (List Char) (List (List Char)) :=
  let model_path := modelPathOf base sc
  if fileExists model_path then
    .error (lchars "Model already exists: " ++ model_path)
  else
    let _modelText := generate_model render sc
    let controller_path := controllerPathOf base sc
    if fileExists controller_path then
      .error (lchars "Controller already exists: " ++ controller_path)
    else
      let _controllerText := generate_controller render sc
      let form_path := formPathOf base sc
      if fileExists form_path then
        .error (lchars "Form already exists: " ++ form_path)
      else
        let _formText := generate_form render sc
        let view_paths := (generate_views render sc).map
          (fun v => viewPathOf base sc v.1)
        .ok ([model_path, controller_path, form_path] ++ view_paths)

/-! ## `User` magic-link methods
(`templates/flask-app/.../app/models/user.py`)

Timestamps are modelled in seconds (`timedelta(minutes=15)` is 900
seconds); the random `secrets.token_urlsafe(32)` value and the current
time are passed as arguments. -/

/-- Magic-link state of a `User` row. -/
structure User where
  magic_link_token : Option (List Char)
  magic_link_expires : Option Nat
deriving DecidableEq, Repr

/-- Embeds `User.generate_magic_link_token`: stores the fresh token and sets the
expiry 15 minutes (900 seconds) after the current time, returning the
token. -/
def generate_magic_link_token (u : User) (now : Nat) (tok : List Char) :
    User × List Char :=
  ({ u with magic_link_token := some tok,
            magic_link_expires := some (now + 15 * 60) }, tok)

/-- Embeds `User.verify_magic_link_token`.  Here `if not self.magic_link_token` is
Python truthiness: `None` and the empty string both fail the guard. -/
def verify_magic_link_token (u : User) (now : Nat) (token : List Char) : Bool :=
  match u.magic_link_token, u.magic_link_expires with
  | some s, some e =>
    if s.isEmpty then false
    else if s ≠ token then false
    else if now > e then false
    else true
  | _, _ => false

/-- Embeds `User.clear_magic_link_token`. -/
def clear_magic_link_token (_u : User) : User :=
  { magic_link_token := none, magic_link_expires := none }

/-! ## `FlaskTracker.get_routes` (`tracker.py`) -/

/-- One entry of `app.url_map.iter_rules()`: the rule string, endpoint, and
method names (`rule.methods` is a set; it is modelled as the list of its
elements). -/
structure UrlRule where
  rule : List Char
  endpoint : List Char
  methods : List (List Char)
deriving DecidableEq, Repr

/-- One dict in the list returned by `get_routes`. -/
structure RouteInfo where
  rule : List Char
  endpoint : List Char
  methods : List (List Char)
deriving DecidableEq, Repr

/-- The comparison used by `sorted(routes, key=lambda x: x["rule"])`:
lexicographic order on the rule string. -/
def ruleLe (a b : RouteInfo) : Bool := decide (a.rule ≤ b.rule)

/-- Embeds `FlaskTracker.get_routes`: `self.app` is `none` when no application was
loaded.  Each rule's methods are taken minus `{"HEAD", "OPTIONS"}` and the
route dicts are sorted (stably) by rule string. -/
def get_routes (app : Option (List UrlRule)) : List RouteInfo :=
  match app with
  | none => []
  | some rules =>
    (rules.map (fun r =>
      { rule := r.rule
        endpoint := r.endpoint
        methods := r.methods.filter
          (fun m => !(m == lchars "HEAD" || m == lchars "OPTIONS")) : RouteInfo }))
      |>.mergeSort ruleLe

/-! ## `cli.add_admin` and `utils.add_user_to_app` (`cli.py`, `utils.py`)

Only the call protocol matters for the claim: `add_user_to_app` is defined
with parameters `(app_path, username, email, password)` while `add_admin`
calls it with an extra `is_admin=True` keyword, which Python rejects with
`TypeError` before the function body runs; the surrounding
`except Exception` turns that into `typer.Exit(1)`. -/

/-- A Python exception class, as far as the claims need. -/
inductive PyErr
  | typeError
  | other
deriving DecidableEq, Repr

/-- Parameter names of `utils.add_user_to_app`. -/
def add_user_to_app_params : List (List Char) :=
  [lchars "app_path", lchars "username", lchars "email", lchars "password"]

/-- Keyword-argument names at the `add_user_to_app(...)` call site inside
`cli.add_admin`. -/
def add_admin_call_kwargs : List (List Char) :=
  [lchars "app_path", lchars "username", lchars "email", lchars "password",
   lchars "is_admin"]

/-- Python keyword-call check: calling a function whose signature declares
`params` with keyword arguments `kwargs` raises `TypeError` when some
keyword is not a declared parameter. -/
def kwargsCheck (params kwargs : List (List Char)) : Option PyErr :=
  if kwargs.all (fun k => params.contains k) then none else some .typeError

/-- Outcome of a CLI command invocation. -/
inductive CmdOutcome
  | exited (code : Nat)
  | ok
deriving DecidableEq, Repr

/-- Embeds `cli.add_admin` control flow: the two existence checks, then the
guarded call to `add_user_to_app` with the extra `is_admin` keyword; the
second component records the exception caught by `except Exception`, if
any.  `bodyResult` stands for the value `add_user_to_app` would return if
the call were ever entered. -/
def add_admin (appFileExists appDirExists : Bool) (bodyResult : Bool) :
    CmdOutcome × Option PyErr :=
  if !appFileExists then (.exited 1, none)
  else if !appDirExists then (.exited 1, none)
  else
    match kwargsCheck add_user_to_app_params add_admin_call_kwargs with
    | some e => (.exited 1, some e)
    | none => if bodyResult then (.ok, none) else (.exited 1, none)


/-! ## Claim-side definitions (for refutations and spec comparison) -/

/-- Modelled from the claim's wording, for comparison with the source: the
type part of a field definition after stripping an optional bracketed
`[Model]` suffix when it starts with `references` or `belongs_to`. -/
def claimStrippedType (d : List Char) : List Char :=
  let t := splitType d
  if (lchars "references").isPrefixOf t || (lchars "belongs_to").isPrefixOf t then
    match t.reverse with
    | ']' :: r1 =>
      let w := r1.takeWhile isWordC
      if !w.isEmpty && (r1.drop w.length).headD ' ' == '[' then
        (r1.drop (w.length + 1)).reverse
      else t
    | _ => t
  else t

/-- Modelled from the claim's wording: the condition under which claim C1
says `parse_fields` raises `ValueError` for one definition. -/
def claimC1Raises (d : List Char) : Bool :=
  !(hasColon d) || (TYPE_MAPPINGS (claimStrippedType d)).isNone

/-- Modelled from the claim's wording: the pluralization rules exactly as
claim C3 states them ("consonant" read as a non-vowel character); to be
compared with the source's `pluralize`. -/
def claimPluralize (word : List Char) : List Char :=
  if word = lchars "person" then lchars "people"
  else if word = lchars "child" then lchars "children"
  else if word = lchars "man" then lchars "men"
  else if word = lchars "woman" then lchars "women"
  else if word = lchars "tooth" then lchars "teeth"
  else if word = lchars "foot" then lchars "feet"
  else if word = lchars "mouse" then lchars "mice"
  else if word = lchars "goose" then lchars "geese"
  else if (lchars "y").isSuffixOf word && decide (1 < word.length)
      && !(isVowelC (penult word)) then
    word.dropLast ++ lchars "ies"
  else if endsAny word [lchars "s", lchars "sh", lchars "ch",
      lchars "x", lchars "z", lchars "o"] then
    word ++ lchars "es"
  else if (lchars "f").isSuffixOf word then word.dropLast ++ lchars "ves"
  else if (lchars "fe").isSuffixOf word then word.dropLast.dropLast ++ lchars "ves"
  else word ++ lchars "s"

/-- The parsed record for `title:string`. -/
def titleStringField : FieldInfo :=
  { name := lchars "title"
    type := lchars "string"
    sqlalchemy_type := lchars "db.String(255)"
    form_field_type := lchars "StringField"
    is_reference := false
    referenced_model := none }

/-- A user whose stored magic-link token is the empty string (set, but
Python-falsy). -/
def emptyTokenUser : User :=
  { magic_link_token := some [], magic_link_expires := some 100 }

/-- A one-rule route table for witnesses. -/
def demoRules : List UrlRule :=
  [{ rule := lchars "/"
     endpoint := lchars "index"
     methods := [lchars "GET", lchars "HEAD", lchars "OPTIONS"] }]

/-- The route dict `get_routes` produces from `demoRules`. -/
def demoRoute : RouteInfo :=
  { rule := lchars "/", endpoint := lchars "index", methods := [lchars "GET"] }

/-- An init file consisting of a single unindented registration call: none
of the regex anchors for the import insertion match here. -/
def regOnlyContent : List Char := lchars "app.register_blueprint(a)"

/-! ## Theorems -/

/-- C9: every invocation of the CLI `add-admin` command that passes the
checks for an existing `app.py` file and `app` directory raises `TypeError`
(the call passes an `is_admin` keyword that `add_user_to_app`'s signature
does not declare) and exits with code 1. -/
theorem add_admin_always_type_errors (bodyResult : Bool) :
    add_admin true true bodyResult = (.exited 1, some .typeError)
    ∧ kwargsCheck add_user_to_app_params add_admin_call_kwargs
        = some .typeError :=
  ⟨rfl, rfl⟩

/-- C7: scaffold generation is deterministic in the name and field list:
two `Scaffold` instances constructed from equal `(name, fields)` inputs
produce identical model, controller, form, and view outputs (the template
environment, built from the fixed template directory, is the same value
`render` for both). -/
theorem scaffold_generation_deterministic (render : Render)
    (n : List Char) (fdefs : List (List Char)) (sc₁ sc₂ : Scaffold)
    (h₁ : Scaffold.make n fdefs = .ok sc₁)
    (h₂ : Scaffold.make n fdefs = .ok sc₂) :
    generate_model render sc₁ = generate_model render sc₂
    ∧ generate_controller render sc₁ = generate_controller render sc₂
    ∧ generate_form render sc₁ = generate_form render sc₂
    ∧ generate_views render sc₁ = generate_views render sc₂ := by
  have h : sc₁ = sc₂ := by
    have := h₁.symm.trans h₂
    exact Except.ok.inj this
  subst h
  exact ⟨rfl, rfl, rfl, rfl⟩

/-- Witness for `scaffold_generation_deterministic` at `("Post", [])`. -/
theorem scaffold_generation_deterministic_witness :
    generate_model (fun _ _ => []) scPost = generate_model (fun _ _ => []) scPost
    ∧ generate_controller (fun _ _ => []) scPost
        = generate_controller (fun _ _ => []) scPost
    ∧ generate_form (fun _ _ => []) scPost = generate_form (fun _ _ => []) scPost
    ∧ generate_views (fun _ _ => []) scPost
        = generate_views (fun _ _ => []) scPost :=
  scaffold_generation_deterministic (fun _ _ => []) (lchars "Post") [] scPost scPost
    rfl rfl

/-- C5 (amended): `update_app_init` returns `True` exactly when the file
exists and does not already contain the blueprint import line; whenever it
returns `False` the text is unmodified; when it returns `True` the text
written back is the best-effort composition of the three regex-anchored
insertion steps (each of which leaves the text unchanged when its anchors
are absent). -/
theorem update_app_init_behavior (sc : Scaffold) (fe : Bool)
    (content : List Char) :
    ((update_app_init sc fe content).1 = true
      ↔ fe = true ∧ containsSub (importLineOf sc.name_plural) content = false)
    ∧ ((update_app_init sc fe content).1 = false →
        (update_app_init sc fe content).2 = content)
    ∧ ((update_app_init sc fe content).1 = true →
        (update_app_init sc fe content).2
          = patchStepShell sc.name sc.name_lower
              (patchStepRegister sc.name_plural
                (patchStepImport sc.name_plural content))) := by
  cases fe with
  | false => simp [update_app_init]
  | true =>
    by_cases h : containsSub (importLineOf sc.name_plural) content
    · simp [update_app_init, h]
    · simp [update_app_init, h]

/-- Witness for `update_app_init_behavior`: concrete instances of each of
the three conjuncts. -/
theorem update_app_init_behavior_witness :
    (update_app_init scPost false initContent).2 = initContent
    ∧ (update_app_init scPost true initContent).1 = true
    ∧ (update_app_init scPost true initContent).2
        = patchStepShell scPost.name scPost.name_lower
            (patchStepRegister scPost.name_plural
              (patchStepImport scPost.name_plural initContent)) :=
  ⟨(update_app_init_behavior scPost false initContent).2.1 (by decide),
   (update_app_init_behavior scPost true initContent).1.mpr ⟨rfl, by decide⟩,
   (update_app_init_behavior scPost true initContent).2.2 (by decide)⟩

/-- C5 counterexample to the claim as stated: on an existing empty file the
method returns `True` but inserts nothing — in particular the written
text lacks the blueprint importing line, although the claim says it is
inserted whenever the path exists and the line was not already present. -/
theorem update_app_init_no_insert_counterexample :
    (update_app_init scPost true []).1 = true
    ∧ (update_app_init scPost true []).2 = []
    ∧ containsSub (importLineOf scPost.name_plural)
        (update_app_init scPost true []).2 = false := by
  decide

/-- C8 (amended): whenever a successful application's output contains the blueprint
importing line, a second application to that output
returns `False` and leaves it unchanged. -/
theorem update_app_init_second_run_noop (sc : Scaffold) (content : List Char)
    (h1 : (update_app_init sc true content).1 = true)
    (h2 : containsSub (importLineOf sc.name_plural)
        (update_app_init sc true content).2 = true) :
    update_app_init sc true ((update_app_init sc true content).2)
      = (false, (update_app_init sc true content).2) := by
  generalize hc : (update_app_init sc true content).2 = c2 at h2
  simp [update_app_init, h2]

/-- Witness for `update_app_init_second_run_noop` on a realistic init
file whose anchors let the first run insert the import line. -/
theorem update_app_init_second_run_noop_witness :
    update_app_init scPost true ((update_app_init scPost true initContent).2)
      = (false, (update_app_init scPost true initContent).2) :=
  update_app_init_second_run_noop scPost initContent (by decide) (by decide)

/-- C8 counterexample to the claim as stated: on a file without the import
anchors the first application succeeds (returns `True`) without inserting
the import line, so the second application returns `True` again, not
`False`. -/
theorem update_app_init_second_run_counterexample :
    (update_app_init scPost true regOnlyContent).1 = true
    ∧ (update_app_init scPost true
        ((update_app_init scPost true regOnlyContent).2)).1 = true := by
  decide

/-- C6 counterexample to the claim as stated: for a user whose stored token
is the (set but empty) string, the presented empty token satisfies all of
the claim's conditions — a stored token and expiry exist, stored equals
presented, and the current time is not after the expiry — yet
`verify_magic_link_token` returns `False`, because the source treats the
empty string as missing (`if not self.magic_link_token`). -/
theorem verify_magic_link_empty_token_counterexample :
    verify_magic_link_token emptyTokenUser 0 [] = false
    ∧ emptyTokenUser.magic_link_token.isSome = true
    ∧ emptyTokenUser.magic_link_expires.isSome = true
    ∧ emptyTokenUser.magic_link_token = some ([] : List Char)
    ∧ ¬ (0 : Nat) > 100 := by
  decide

/-- C6 (amended): `generate_magic_link_token` sets the expiry exactly
15 minutes (900 seconds) after the current time; verification succeeds iff
a stored NON-EMPTY token and a stored expiry exist, the stored token equals
the presented one, and the current time is not after the expiry; after
`clear_magic_link_token` every verification returns `False`. -/
theorem magic_link_token_lifecycle :
    (∀ (u : User) (now : Nat) (tok : List Char),
      (generate_magic_link_token u now tok).1.magic_link_expires
          = some (now + 15 * 60)
        ∧ (generate_magic_link_token u now tok).1.magic_link_token = some tok)
    ∧ (∀ (u : User) (now : Nat) (token : List Char),
      verify_magic_link_token u now token = true
        ↔ ∃ s e, u.magic_link_token = some s ∧ s ≠ []
            ∧ u.magic_link_expires = some e ∧ s = token ∧ ¬ now > e)
    ∧ (∀ (u : User) (now : Nat) (token : List Char),
      verify_magic_link_token (clear_magic_link_token u) now token = false) := by
  refine ⟨fun u now tok => ⟨rfl, rfl⟩, fun u now token => ?_, fun u now token => rfl⟩
  obtain ⟨tk, ex⟩ := u
  cases tk with
  | none => simp [verify_magic_link_token]
  | some s =>
    cases ex with
    | none => simp [verify_magic_link_token]
    | some e =>
      simp only [verify_magic_link_token, Option.some.injEq]
      constructor
      · intro h
        split_ifs at h with h1 h2 h3
        exact ⟨s, e, rfl, by simpa [List.isEmpty_iff] using h1, rfl, by
          simpa using h2, h3⟩
      · rintro ⟨s', e', rfl, hne, rfl, heq, hle⟩
        subst heq
        simp [List.isEmpty_iff, hne, hle]

/-- Witness for `magic_link_token_lifecycle`: a concrete successful
verification obtained through the iff. -/
theorem magic_link_token_lifecycle_witness :
    verify_magic_link_token
      { magic_link_token := some (lchars "tok"), magic_link_expires := some 100 }
      50 (lchars "tok") = true :=
  (magic_link_token_lifecycle.2.1 _ 50 (lchars "tok")).mpr
    ⟨lchars "tok", 100, rfl, by decide, rfl, rfl, by decide⟩

/-- C10: `get_routes` returns `[]` when no application is loaded; the
returned list is sorted in ascending order of the rule string; and no
returned route's methods contain `HEAD` or `OPTIONS`. -/
theorem get_routes_sorted_and_filtered (app : Option (List UrlRule)) :
    get_routes none = ([] : List RouteInfo)
    ∧ List.Pairwise (fun a b : RouteInfo => a.rule ≤ b.rule) (get_routes app)
    ∧ ∀ r ∈ get_routes app,
        ¬ lchars "HEAD" ∈ r.methods ∧ ¬ lchars "OPTIONS" ∈ r.methods := by
  refine ⟨rfl, ?_, ?_⟩
  · cases app with
    | none => simp [get_routes]
    | some rules =>
      have h := @List.sorted_mergeSort RouteInfo ruleLe
        (fun a b c hab hbc => by
          simp only [ruleLe, decide_eq_true_eq] at *
          exact le_trans hab hbc)
        (fun a b => by
          simp only [ruleLe]
          rcases le_total a.rule b.rule with h | h <;> simp [h])
        (rules.map (fun r =>
          { rule := r.rule
            endpoint := r.endpoint
            methods := r.methods.filter
              (fun m => !(m == lchars "HEAD" || m == lchars "OPTIONS")) : RouteInfo }))
      exact h.imp (fun hab => by
        simpa [ruleLe, decide_eq_true_eq] using hab)
  · intro r hr
    cases app with
    | none => simp [get_routes] at hr
    | some rules =>
      simp only [get_routes, List.mem_mergeSort, List.mem_map] at hr
      obtain ⟨u, _, rfl⟩ := hr
      constructor <;> intro hmem <;>
        simp [List.mem_filter] at hmem

/-- Witness for `get_routes_sorted_and_filtered` on a one-rule table whose
methods contain both stripped verbs. -/
theorem get_routes_sorted_and_filtered_witness :
    ¬ lchars "HEAD" ∈ demoRoute.methods ∧ ¬ lchars "OPTIONS" ∈ demoRoute.methods :=
  (get_routes_sorted_and_filtered (some demoRules)).2.2 demoRoute
    (by simp only [get_routes, List.mem_mergeSort]; decide)

/-- C2 (amended): for every scaffold whose three code files do not already
exist, `write_files` returns exactly EIGHT created file paths — the model,
controller and form files plus the five view templates — in creation
order. -/
theorem write_files_creates_eight_paths (fileExists : List Char → Bool)
    (render : Render) (sc : Scaffold) (base : List Char)
    (h1 : fileExists (modelPathOf base sc) = false)
    (h2 : fileExists (controllerPathOf base sc) = false)
    (h3 : fileExists (formPathOf base sc) = false) :
    write_files fileExists render sc base
      = .ok ([modelPathOf base sc, controllerPathOf base sc, formPathOf base sc]
          ++ viewPathsOf base sc)
    ∧ ([modelPathOf base sc, controllerPathOf base sc, formPathOf base sc]
          ++ viewPathsOf base sc).length = 8 := by
  constructor
  · simp only [write_files, h1, h2, h3, if_false, Bool.false_eq_true,
      viewPathsOf, generate_views, List.map_map, Function.comp_def]
  · simp [viewPathsOf, viewTemplateNames]

/-- Witness for `write_files_creates_eight_paths` at a concrete scaffold
with no pre-existing files. -/
theorem write_files_creates_eight_paths_witness :
    write_files (fun _ => false) (fun _ _ => []) scPost (lchars ".")
      = .ok ([modelPathOf (lchars ".") scPost,
              controllerPathOf (lchars ".") scPost,
              formPathOf (lchars ".") scPost]
          ++ viewPathsOf (lchars ".") scPost)
    ∧ ([modelPathOf (lchars ".") scPost, controllerPathOf (lchars ".") scPost,
        formPathOf (lchars ".") scPost]
          ++ viewPathsOf (lchars ".") scPost).length = 8 :=
  write_files_creates_eight_paths (fun _ => false) (fun _ _ => []) scPost
    (lchars ".") rfl rfl rfl

/-- C2 counterexample to the claim as stated: for the valid input
`("Post", [])` the scaffold writes eight files, not five — `write_files`
returns a list of length 8. -/
theorem write_files_five_paths_counterexample :
    Scaffold.make (lchars "Post") [] = .ok scPost
    ∧ (write_files (fun _ => false) (fun _ _ => []) scPost
        (lchars ".")).toOption.map List.length = some 8
    ∧ some (8 : Nat) ≠ some 5 :=
  ⟨rfl, rfl, by decide⟩

/-- A word ending in `ss` also ends in `s`. -/
theorem ss_suffix_implies_s (w : List Char)
    (h : (lchars "ss").isSuffixOf w = true) : (lchars "s").isSuffixOf w = true := by
  have e2 : (lchars "ss").reverse = ['s', 's'] := rfl
  have e1 : (lchars "s").reverse = ['s'] := rfl
  unfold List.isSuffixOf at h ⊢
  rw [e2] at h
  rw [e1]
  cases hr : w.reverse with
  | nil => rw [hr] at h; simp [List.isPrefixOf] at h
  | cons a t =>
    rw [hr] at h
    simp only [List.isPrefixOf, Bool.and_eq_true] at h ⊢
    exact ⟨h.1, trivial⟩

/-- The redundant `"ss"` entry in the `endswith` tuple of `pluralize` does
not change the test. -/
theorem endsAny_ss_absorb (w : List Char) :
    endsAny w [lchars "s", lchars "ss", lchars "sh", lchars "ch",
      lchars "x", lchars "z", lchars "o"]
    = endsAny w [lchars "s", lchars "sh", lchars "ch",
      lchars "x", lchars "z", lchars "o"] := by
  simp only [endsAny, List.any_cons, List.any_nil]
  cases hs : (lchars "s").isSuffixOf w with
  | true => simp
  | false =>
    have hss : (lchars "ss").isSuffixOf w = false := by
      cases h2 : (lchars "ss").isSuffixOf w with
      | false => rfl
      | true => rw [ss_suffix_implies_s w h2] at hs; exact hs
    simp [hss]

/-- C3: `Scaffold.pluralize` behaves exactly as the claim states it — the
irregular lookup first, then the suffix rules in order ("consonant" read as
a non-vowel character, matching `word[-2] not in "aeiou"`); the source's
extra `"ss"` endswith entry is subsumed by `"s"`. -/
theorem pluralize_matches_claim (w : List Char) :
    pluralize w = claimPluralize w := by
  unfold pluralize claimPluralize
  rw [endsAny_ss_absorb]

/-- The loop body accepts a split field definition exactly when its type
part starts with a reference keyword or is one of the ten mapped types. -/
theorem parseTypedField_isOk (name t : List Char) :
    (parseTypedField name t).isOk = !(invalidType t) := by
  have er : TYPE_MAPPINGS (lchars "references") = some (lchars "reference") := rfl
  have eb : TYPE_MAPPINGS (lchars "belongs_to") = some (lchars "reference") := rfl
  unfold parseTypedField invalidType
  by_cases h1 : (lchars "references").isPrefixOf t = true
  · simp [h1, er, Except.isOk, Except.toBool]
  · by_cases h2 : (lchars "belongs_to").isPrefixOf t = true
    · simp [h1, h2, eb, Except.isOk, Except.toBool]
    · simp only [h1, h2, Bool.false_or, Bool.or_self, if_false,
        Bool.not_eq_true, Bool.false_eq_true]
      cases hm : TYPE_MAPPINGS t with
      | none => simp [hm, h1, h2, Except.isOk, Except.toBool]
      | some sq => simp [hm, h1, h2, Except.isOk, Except.toBool]

/-- A field definition parses exactly when it is not invalid. -/
theorem parseFieldDef_isOk (d : List Char) :
    (parseFieldDef d).isOk = !(invalidFieldDef d) := by
  unfold parseFieldDef invalidFieldDef
  by_cases hc : hasColon d = true
  · simp [hc, parseTypedField_isOk]
  · simp [hc, Except.isOk, Except.toBool]

/-- C1 (amended): `parse_fields` raises `ValueError` iff some definition
contains no colon or has a type part that neither starts with
`references`/`belongs_to` nor is one of the ten fixed types (a type part
starting with a reference keyword is always accepted, whatever follows the
keyword); otherwise it returns one parsed record per definition, in input
order. -/
theorem parse_fields_error_characterization (defs : List (List Char)) :
    ((parse_fields defs).isOk = false ↔ ∃ d ∈ defs, invalidFieldDef d = true)
    ∧ ∀ l, parse_fields defs = .ok l →
        List.Forall₂ (fun d f => parseFieldDef d = .ok f) defs l := by
  induction defs with
  | nil =>
    refine ⟨by simp [parse_fields, Except.isOk, Except.toBool], ?_⟩
    intro l hl
    simp only [parse_fields, Except.ok.injEq] at hl
    subst hl
    exact List.Forall₂.nil
  | cons d ds ih =>
    refine ⟨?_, ?_⟩
    · cases hd : parseFieldDef d with
      | error e =>
        have hinv : invalidFieldDef d = true := by
          have h := parseFieldDef_isOk d
          rw [hd] at h
          simpa using h.symm
        simp only [parse_fields, hd, Except.isOk, Except.toBool, List.mem_cons]
        exact iff_of_true trivial ⟨d, Or.inl rfl, hinv⟩
      | ok f =>
        have hval : invalidFieldDef d = false := by
          have h := parseFieldDef_isOk d
          rw [hd] at h
          simpa using h.symm
        cases hds : parse_fields ds with
        | error e =>
          simp only [parse_fields, hd, hds, Except.isOk, Except.toBool, List.mem_cons]
          refine iff_of_true trivial ?_
          obtain ⟨d', hmem, hinv⟩ := ih.1.mp (by rw [hds]; rfl)
          exact ⟨d', Or.inr hmem, hinv⟩
        | ok fs =>
          simp only [parse_fields, hd, hds, Except.isOk, Except.toBool, List.mem_cons]
          constructor
          · intro h
            cases h
          · rintro ⟨x, hx | hx, hinvx⟩
            · subst hx
              rw [hval] at hinvx
              cases hinvx
            · have := ih.1.mpr ⟨x, hx, hinvx⟩
              rw [hds] at this
              cases this
    · intro l hl
      cases hd : parseFieldDef d with
      | error e => simp [parse_fields, hd] at hl
      | ok f =>
        cases hds : parse_fields ds with
        | error e => simp [parse_fields, hd, hds] at hl
        | ok fs =>
          simp only [parse_fields, hd, hds, Except.ok.injEq] at hl
          subst hl
          exact List.Forall₂.cons hd (ih.2 fs hds)

/-- Witness for `parse_fields_error_characterization`: a concrete parse of
`["title:string"]` and a concrete rejection of `["titlestring"]`. -/
theorem parse_fields_error_characterization_witness :
    List.Forall₂ (fun d f => parseFieldDef d = .ok f)
      [lchars "title:string"] [titleStringField]
    ∧ (parse_fields [lchars "titlestring"]).isOk = false :=
  ⟨(parse_fields_error_characterization [lchars "title:string"]).2
      [titleStringField] rfl,
   (parse_fields_error_characterization [lchars "titlestring"]).1.mpr
      ⟨lchars "titlestring", by simp, by decide⟩⟩

/-- C1 counterexample to the claim as stated: for `a:referencesfoo` the
type part (no bracketed suffix to strip) is `referencesfoo`, which is not
one of the ten fixed types, so the claim predicts `ValueError` — but the
source's regex normalizes any type starting with `references` to
`references` and accepts the definition. -/
theorem parse_fields_claim_counterexample :
    claimC1Raises (lchars "a:referencesfoo") = true
    ∧ (parse_fields [lchars "a:referencesfoo"]).isOk = true := by
  decide

/-- A colon is found in any definition built around one. -/
theorem hasColon_append (n r : List Char) : hasColon (n ++ ':' :: r) = true := by
  induction n with
  | nil => rfl
  | cons c cs ih =>
    simp only [hasColon, List.cons_append, List.contains_cons] at ih ⊢
    rw [ih]
    simp

/-- Computes the `split(":", 1)` name part: everything before the first colon. -/
theorem splitName_append (n r : List Char) (h : ':' ∉ n) :
    splitName (n ++ ':' :: r) = n := by
  induction n with
  | nil => rfl
  | cons c cs ih =>
    have hc : c ≠ ':' := fun hc => h (hc ▸ List.mem_cons_self c cs)
    have hcs : ':' ∉ cs := fun hm => h (List.mem_cons_of_mem c hm)
    simp only [splitName, List.cons_append, List.takeWhile_cons] at ih ⊢
    simp only [bne_iff_ne, ne_eq, hc, not_false_eq_true, if_true]
    exact congrArg (c :: ·) (ih hcs)

/-- Computes the `split(":", 1)` type part: everything after the first colon. -/
theorem splitType_append (n r : List Char) (h : ':' ∉ n) :
    splitType (n ++ ':' :: r) = r := by
  unfold splitType
  rw [splitName_append n r h]
  have : n ++ ':' :: r = (n ++ [':']) ++ r := by simp
  rw [this, show n.length + 1 = (n ++ [':']).length by simp]
  exact List.drop_left _ _

/-- A list is a Boolean prefix of itself followed by anything. -/
theorem isPrefixOf_append_self (l r : List Char) :
    l.isPrefixOf (l ++ r) = true := by
  induction l with
  | nil => simp [List.isPrefixOf]
  | cons c cs ih => simp [List.isPrefixOf, ih]

/-- A `takeWhile` stops exactly at the first failing element. -/
theorem takeWhile_append_stop (p : Char → Bool) (M : List Char) (x : Char)
    (r : List Char) (hM : ∀ c ∈ M, p c = true) (hx : p x = false) :
    (M ++ x :: r).takeWhile p = M := by
  induction M with
  | nil => simp [List.takeWhile_cons, hx]
  | cons c cs ih =>
    simp only [List.cons_append, List.takeWhile_cons,
      hM c (List.mem_cons_self c cs), if_true]
    exact congrArg (c :: ·) (ih (fun d hd => hM d (List.mem_cons_of_mem c hd)))

/-- A bare `references` type infers the model from the field name. -/
theorem parseTypedField_references_plain (n : List Char) :
    parseTypedField n (lchars "references")
      = .ok { name := n, type := lchars "references",
              sqlalchemy_type := lchars "reference",
              form_field_type := lchars "SelectField",
              is_reference := true, referenced_model := some (capitalizeL n) } := rfl

/-- A bare `belongs_to` type infers the model from the field name. -/
theorem parseTypedField_belongs_plain (n : List Char) :
    parseTypedField n (lchars "belongs_to")
      = .ok { name := n, type := lchars "belongs_to",
              sqlalchemy_type := lchars "reference",
              form_field_type := lchars "SelectField",
              is_reference := true, referenced_model := some (capitalizeL n) } := rfl

/-- The optional regex group extracts a bracketed nonempty word. -/
theorem bracketModel_word (M : List Char) (hM1 : M ≠ [])
    (hM2 : ∀ c ∈ M, isWordC c = true) :
    bracketModel ('[' :: (M ++ [']'])) = some M := by
  have hne : M.isEmpty = false := by
    cases M with
    | nil => exact absurd rfl hM1
    | cons a as => rfl
  simp only [bracketModel, wordRun]
  rw [takeWhile_append_stop isWordC M ']' [] hM2 (by decide)]
  rw [List.drop_left]
  simp [hne]

/-- Type `references[M]` parses to a reference on model `M`. -/
theorem parseTypedField_references_bracket (n M : List Char) (hM1 : M ≠ [])
    (hM2 : ∀ c ∈ M, isWordC c = true) :
    parseTypedField n (lchars "references" ++ '[' :: (M ++ [']']))
      = .ok { name := n, type := lchars "references",
              sqlalchemy_type := lchars "reference",
              form_field_type := lchars "SelectField",
              is_reference := true, referenced_model := some M } := by
  have hpre := isPrefixOf_append_self (lchars "references") ('[' :: (M ++ [']']))
  simp only [parseTypedField, hpre, Bool.true_or, if_true, List.drop_left,
    bracketModel_word M hM1 hM2]
  rfl

/-- Type `belongs_to[M]` parses to a reference on model `M`. -/
theorem parseTypedField_belongs_bracket (n M : List Char) (hM1 : M ≠ [])
    (hM2 : ∀ c ∈ M, isWordC c = true) :
    parseTypedField n (lchars "belongs_to" ++ '[' :: (M ++ [']']))
      = .ok { name := n, type := lchars "belongs_to",
              sqlalchemy_type := lchars "reference",
              form_field_type := lchars "SelectField",
              is_reference := true, referenced_model := some M } := by
  have hpre := isPrefixOf_append_self (lchars "belongs_to") ('[' :: (M ++ [']']))
  have hnref : (lchars "references").isPrefixOf
      (lchars "belongs_to" ++ '[' :: (M ++ [']'])) = false := rfl
  simp only [parseTypedField, hpre, hnref, Bool.false_or, if_true,
    Bool.false_eq_true, if_false, List.drop_left,
    bracketModel_word M hM1 hM2]
  rfl

/-- Splitting a definition built around its first colon. -/
theorem parseFieldDef_split (n t : List Char) (hn : ':' ∉ n) :
    parseFieldDef (n ++ ':' :: t) = parseTypedField n t := by
  simp only [parseFieldDef, hasColon_append, if_true,
    splitName_append n t hn, splitType_append n t hn]

/-- A parsed field whose final type is not a reference keyword has
`is_reference = false` and no referenced model. -/
theorem parseTypedField_nonref (n t : List Char) (f : FieldInfo)
    (h : parseTypedField n t = .ok f)
    (h1 : f.type ≠ lchars "references") (h2 : f.type ≠ lchars "belongs_to") :
    f.is_reference = false ∧ f.referenced_model = none := by
  simp only [parseTypedField] at h
  by_cases hr : (lchars "references").isPrefixOf t = true
  · simp only [hr, Bool.true_or, if_true,
      show TYPE_MAPPINGS (lchars "references") = some (lchars "reference") from rfl]
      at h
    obtain rfl := Except.ok.inj h
    exact absurd rfl h1
  · have hr' : (lchars "references").isPrefixOf t = false := by
      cases h' : (lchars "references").isPrefixOf t with
      | false => rfl
      | true => exact absurd h' hr
    by_cases hb : (lchars "belongs_to").isPrefixOf t = true
    · simp only [hr', hb, Bool.false_or, if_true, Bool.false_eq_true, if_false,
        show TYPE_MAPPINGS (lchars "belongs_to") = some (lchars "reference") from rfl]
        at h
      obtain rfl := Except.ok.inj h
      exact absurd rfl h2
    · have hb' : (lchars "belongs_to").isPrefixOf t = false := by
        cases h' : (lchars "belongs_to").isPrefixOf t with
        | false => rfl
        | true => exact absurd h' hb
      simp only [hr', hb', Bool.or_self, Bool.false_eq_true, if_false] at h
      cases hm : TYPE_MAPPINGS t with
      | none => rw [hm] at h; cases h
      | some sq =>
        rw [hm] at h
        simp only [Except.ok.injEq] at h
        obtain rfl := h
        refine ⟨?_, rfl⟩
        have ht1 : (t == lchars "references") = false :=
          beq_eq_false_iff_ne.mpr (by simpa using h1)
        have ht2 : (t == lchars "belongs_to") = false :=
          beq_eq_false_iff_ne.mpr (by simpa using h2)
        simp [ht1, ht2]

/-- C4: `name:references[M]` and `name:belongs_to[M]` parse to reference
fields on model `M`; bare `name:references`/`name:belongs_to` infer the
referenced model by capitalizing the field name (first letter uppercased,
rest lowercased); every parsed field whose type is not a reference keyword
has `is_reference` false and no referenced model. -/
theorem reference_field_parsing :
    (∀ n M : List Char, ':' ∉ n → M ≠ [] → (∀ c ∈ M, isWordC c = true) →
      (∃ f, parseFieldDef (n ++ ':' :: (lchars "references" ++ '[' :: (M ++ [']'])))
          = .ok f ∧ f.is_reference = true ∧ f.referenced_model = some M)
      ∧ ∃ f, parseFieldDef (n ++ ':' :: (lchars "belongs_to" ++ '[' :: (M ++ [']'])))
          = .ok f ∧ f.is_reference = true ∧ f.referenced_model = some M)
    ∧ (∀ n : List Char, ':' ∉ n →
      (∃ f, parseFieldDef (n ++ ':' :: lchars "references") = .ok f
          ∧ f.is_reference = true ∧ f.referenced_model = some (capitalizeL n))
      ∧ ∃ f, parseFieldDef (n ++ ':' :: lchars "belongs_to") = .ok f
          ∧ f.is_reference = true ∧ f.referenced_model = some (capitalizeL n))
    ∧ (∀ (d : List Char) (f : FieldInfo), parseFieldDef d = .ok f →
        f.type ≠ lchars "references" → f.type ≠ lchars "belongs_to" →
        f.is_reference = false ∧ f.referenced_model = none) := by
  refine ⟨fun n M hn hM1 hM2 => ⟨?_, ?_⟩, fun n hn => ⟨?_, ?_⟩, ?_⟩
  · exact ⟨_, by rw [parseFieldDef_split n _ hn,
      parseTypedField_references_bracket n M hM1 hM2], rfl, rfl⟩
  · exact ⟨_, by rw [parseFieldDef_split n _ hn,
      parseTypedField_belongs_bracket n M hM1 hM2], rfl, rfl⟩
  · exact ⟨_, by rw [parseFieldDef_split n _ hn,
      parseTypedField_references_plain n], rfl, rfl⟩
  · exact ⟨_, by rw [parseFieldDef_split n _ hn,
      parseTypedField_belongs_plain n], rfl, rfl⟩
  · intro d f h h1 h2
    unfold parseFieldDef at h
    by_cases hc : hasColon d = true
    · rw [if_pos hc] at h
      exact parseTypedField_nonref _ _ f h h1 h2
    · rw [if_neg hc] at h
      cases h

/-- Witness for `reference_field_parsing`: concrete instances of all three
parts, at `user:references[Author]`, `user:references`, and
`title:string`. -/
theorem reference_field_parsing_witness :
    ((∃ f, parseFieldDef (lchars "user" ++ ':'
          :: (lchars "references" ++ '[' :: (lchars "Author" ++ [']'])))
        = .ok f ∧ f.is_reference = true
        ∧ f.referenced_model = some (lchars "Author"))
      ∧ ∃ f, parseFieldDef (lchars "user" ++ ':'
          :: (lchars "belongs_to" ++ '[' :: (lchars "Author" ++ [']'])))
        = .ok f ∧ f.is_reference = true
        ∧ f.referenced_model = some (lchars "Author"))
    ∧ ((∃ f, parseFieldDef (lchars "user" ++ ':' :: lchars "references") = .ok f
        ∧ f.is_reference = true
        ∧ f.referenced_model = some (capitalizeL (lchars "user")))
      ∧ ∃ f, parseFieldDef (lchars "user" ++ ':' :: lchars "belongs_to") = .ok f
        ∧ f.is_reference = true
        ∧ f.referenced_model = some (capitalizeL (lchars "user")))
    ∧ (titleStringField.is_reference = false
        ∧ titleStringField.referenced_model = none) :=
  ⟨reference_field_parsing.1 (lchars "user") (lchars "Author")
      (by decide) (by decide) (by decide),
   reference_field_parsing.2.1 (lchars "user") (by decide),
   reference_field_parsing.2.2 (lchars "title:string") titleStringField
      rfl (by decide) (by decide)⟩

/-! ## Evaluation sanity checks

Concrete evaluations of the embedded functions, cross-checked against the
behaviour of the source's string operations and regexes on the same
inputs. -/

example : pluralize (lchars "post") = lchars "posts" := by decide
example : pluralize (lchars "person") = lchars "people" := by decide
example : pluralize (lchars "city") = lchars "cities" := by decide
example : pluralize (lchars "boy") = lchars "boys" := by decide
example : pluralize (lchars "box") = lchars "boxes" := by decide
example : pluralize (lchars "leaf") = lchars "leaves" := by decide
example : (parse_fields [lchars "title:string", lchars "user:references"]).isOk = true := by
  decide
example : (parse_fields [lchars "title"]).isOk = false := by decide
example : (parse_fields [lchars "a:referencesfoo"]).isOk = true := by decide

example : searchEnd matchPat1At initContent 0 = some 71 := by decide
example : searchStart matchPat2At initContent 0 = some (70, lchars "\n\n    ") := by
  decide
example : lastRegCall (initContent.length + 1) initContent 0 none = some (76, 107) := by
  decide
example :
    searchEnd matchPat1At
      (lchars "  # Register blueprints\nxx\n  from app.controllers.a import a_bp\n") 0
      = none := by decide
example :
    matchReturnDictAt (lchars "return \x7b\"db\": db, \"User\": User\x7d") = some 30 := by
  decide
example :
    searchEnd matchPat4At
      (lchars "@app.shell_context_processor\n    def make_shell_context():\n        from app.models.user import User\n") 0
      = some 100 := by decide
example :
    lastRegCall 60 (lchars "app.register_blueprint(app.register_blueprint(x))") 0 none
      = some (0, 48) := by decide
example : (update_app_init scPost true initContent).1 = true := by decide
example :
    containsSub (importLineOf scPost.name_plural)
      (update_app_init scPost true initContent).2 = true := by decide
example : (update_app_init scPost true initContent).2.length = 213 := by decide
example :
    containsSub (registerLineOf scPost.name_plural)
      (update_app_init scPost true initContent).2 = true := by decide
